import Mathlib

/-!
Shallow embedding of `src/trstats.py` (trace-wrap): the hop-record parser
`parse_traceroute_output` (source lines 98-138) and the multi-run aggregator
`get_statistics_per_hop` (source lines 23-63).  Latency values are modelled as
exact rationals and Python `round` as decimal round-half-to-even, the rounding
mode the spec (section 9) fixes for reproducibility.  A run's raw text is given
as its list of lines (`str.splitlines`).  The `latencies_per_hop` side table
feeds only the excluded plotting collaborator and is not modelled.
-/

attribute [local semireducible] Rat.mul Rat.add Rat.inv Rat.sub

deriving instance DecidableEq for Except

namespace TraceWrap

/-- Accumulator loop for `pySplit`: `cur` holds the characters of the token
being read, in reverse. -/
def splitWsGo : List Char → List Char → List String
  | [], cur => if cur.isEmpty then [] else [String.mk cur.reverse]
  | c :: cs, cur =>
    if c.isWhitespace then
      if cur.isEmpty then splitWsGo cs [] else String.mk cur.reverse :: splitWsGo cs []
    else splitWsGo cs (c :: cur)

/-- Python `str.split()` with no arguments: split on runs of whitespace,
producing no empty tokens. -/
def pySplit (s : String) : List String :=
  splitWsGo s.toList []

/-- Helper for `hasMs`: substring search for the two characters `m`, `s`. -/
def hasMsChars : List Char → Bool
  | 'm' :: 's' :: _ => true
  | _ :: rest => hasMsChars rest
  | [] => false

/-- Python `'ms' in part` (source line 120): substring containment. -/
def hasMs (s : String) : Bool :=
  hasMsChars s.toList

/-- Python `'(' in part` and `')' in part` (source line 116): character
containment. -/
def hasChar (s : String) (c : Char) : Bool :=
  s.toList.contains c

/-- Numeric value of a list of decimal digit characters. -/
def digitsVal (cs : List Char) : ℕ :=
  cs.foldl (fun a c => a * 10 + (c.toNat - 48)) 0

/-- All characters are decimal digits. -/
def allDigits (cs : List Char) : Bool :=
  cs.all fun c => c.isDigit

/-- Mantissa of a Python float literal: `digits`, `digits.digits`, `digits.`
or `.digits`, requiring at least one digit. -/
def parseMantissa (cs : List Char) : Option ℚ :=
  let ip := cs.takeWhile fun c => c.isDigit
  let rest := cs.dropWhile fun c => c.isDigit
  match rest with
  | [] => if ip = [] then none else some (digitsVal ip)
  | '.' :: fp =>
      if allDigits fp ∧ (ip ≠ [] ∨ fp ≠ []) then
        some ((digitsVal ip : ℚ) + (digitsVal fp : ℚ) / (10 : ℚ) ^ fp.length)
      else none
  | _ => none

/-- Optionally signed decimal integer (Python `int()` on a clean token).
Underscore grouping is not modelled. -/
def parseSignedInt : List Char → Option ℤ
  | '+' :: ds => if ds ≠ [] ∧ allDigits ds then some (digitsVal ds) else none
  | '-' :: ds => if ds ≠ [] ∧ allDigits ds then some (-(digitsVal ds : ℤ)) else none
  | ds => if ds ≠ [] ∧ allDigits ds then some (digitsVal ds) else none

/-- Unsigned part of Python `float()`: mantissa with an optional exponent.
The `inf`/`nan` and underscore forms never occur in traceroute output and are
not modelled. -/
def pyFloatCore (cs : List Char) : Option ℚ :=
  let mant := cs.takeWhile fun c => c ≠ 'e' ∧ c ≠ 'E'
  let rest := cs.dropWhile fun c => c ≠ 'e' ∧ c ≠ 'E'
  match rest with
  | [] => parseMantissa mant
  | _ :: ex =>
    match parseMantissa mant, parseSignedInt ex with
    | some m, some e => some (m * (10 : ℚ) ^ e)
    | _, _ => none

/-- Python `float(token)` (source line 122), as an exact rational. -/
def pyFloat (s : String) : Option ℚ :=
  match s.toList with
  | '+' :: cs => pyFloatCore cs
  | '-' :: cs => (pyFloatCore cs).map fun q => -q
  | cs => pyFloatCore cs

/-- Python `int(token)` (sort key, source line 61). -/
def pyInt (s : String) : Option ℤ :=
  parseSignedInt s.toList

/-- Round-half-to-even to an integer, the decimal-level reading of Python
`round` that the spec (section 9) fixes. -/
def roundHalfEven (q : ℚ) : ℤ :=
  let f : ℤ := ⌊q⌋
  if q - f < 1 / 2 then f
  else if 1 / 2 < q - f then f + 1
  else if f % 2 = 0 then f else f + 1

/-- Python `round(q, n)` (source lines 128 and 50-55). -/
def pyRound (n : ℕ) (q : ℚ) : ℚ :=
  (roundHalfEven (q * (10 : ℚ) ^ n) : ℚ) / (10 : ℚ) ^ n

/-- Python `statistics.mean` (the `sum(times) / len(times)` of line 128 and
`statistics.mean` of line 50 agree on nonempty lists; `0` for the empty list is
unreachable, both call sites guard on nonemptiness). -/
def pyMean (l : List ℚ) : ℚ :=
  l.sum / l.length

/-- Python `statistics.median`: middle element of the sorted data for odd
length, mean of the two middle elements for even length.  The value at the
empty list is unreachable (both call sites guard on nonemptiness). -/
def pyMedian (l : List ℚ) : ℚ :=
  let s := l.insertionSort fun a b => a ≤ b
  let n := l.length
  if n % 2 = 1 then s.getD (n / 2) 0
  else (s.getD (n / 2 - 1) 0 + s.getD (n / 2) 0) / 2

/-- Python `max()` over a nonempty list (`0` for `[]` is unreachable: callers
guard). -/
def pyMax (l : List ℚ) : ℚ :=
  match l with
  | [] => 0
  | x :: xs => xs.foldl max x

/-- Python `min()` over a nonempty list (`0` for `[]` is unreachable: callers
guard). -/
def pyMin (l : List ℚ) : ℚ :=
  match l with
  | [] => 0
  | x :: xs => xs.foldl min x

/-- The per-run, per-hop record built by the parser (class `TracerouteOutput`,
source lines 13-20).  Numeric fields are `none` where Python stores `None`. -/
structure TracerouteOutput where
  avg : Option ℚ
  hop : String
  hosts : List (String × String)
  maximum : Option ℚ
  median : Option ℚ
  minimum : Option ℚ
deriving DecidableEq

/-- Token scan of source lines 113-124: for each index `i ≥ 1`, a token
containing both parentheses is an address paired with its predecessor as the
hostname; otherwise a token containing `ms` marks its predecessor as a latency
sample, silently skipped when `float()` fails.  Returns (samples, host pairs)
in encounter order. -/
def scanTokens : String → List String → List ℚ × List (String × String)
  | _, [] => ([], [])
  | prev, t :: ts =>
    let r := scanTokens t ts
    if hasChar t '(' && hasChar t ')' then (r.1, (prev, t) :: r.2)
    else if hasMs t then
      match pyFloat prev with
      | some q => (q :: r.1, r.2)
      | none => r
    else r

/-- Records emitted for one line (source lines 102-136).  A line with no
tokens raises `IndexError` at `parts[0]` (modelled as `Except.error`); a
timeout line (`parts[1:4] == ["*"] * 3`) yields the all-null record; a line
whose scan collects no latency sample yields no record at all (the `if times:`
guard of line 127), discarding any collected hosts; otherwise one record is
built with `avg = round(mean, 2)`, `maximum = max(times)`,
`minimum = max(times)` (the second `max` of source line 130) and
`median = statistics.median(times)`. -/
def lineRecords (parts : List String) : Except String (List TracerouteOutput) :=
  match parts with
  | [] => Except.error "IndexError"
  | hopNumber :: rest =>
    if rest.take 3 = ["*", "*", "*"] then
      Except.ok [⟨none, hopNumber, [], none, none, none⟩]
    else
      let st := scanTokens hopNumber rest
      if st.1 = [] then Except.ok []
      else
        Except.ok [⟨some (pyRound 2 (pyMean st.1)), hopNumber, st.2,
          some (pyMax st.1), some (pyMedian st.1), some (pyMax st.1)⟩]

/-- Parse all non-header lines in order, concatenating the emitted records
(the loop of source lines 102-136). -/
def parseLines : List String → Except String (List TracerouteOutput)
  | [] => Except.ok []
  | ln :: rest => do
    let rs ← lineRecords (pySplit ln)
    let more ← parseLines rest
    pure (rs ++ more)

/-- Function `parse_traceroute_output` (source lines 98-138), with the run's
text given as its list of lines; the first line is the discarded header. -/
def parse_traceroute_output (lines : List String) : Except String (List TracerouteOutput) :=
  parseLines (lines.drop 1)

/-- Per-hop accumulator (the `hop_data[hop]` dict of source lines 31-37). -/
structure HopAcc where
  avgs : List ℚ
  maxs : List ℚ
  meds : List ℚ
  mins : List ℚ
  hosts : List (List (String × String))
deriving DecidableEq

/-- The freshly initialized accumulator of source lines 31-37. -/
def emptyAcc : HopAcc :=
  ⟨[], [], [], [], []⟩

/-- Python truthiness of `result.avg` (the `if result.avg:` of source line
38): `None` and `0.0` are falsy. -/
def truthyAvg (r : TracerouteOutput) : Bool :=
  match r.avg with
  | some a => decide (a ≠ 0)
  | none => false

/-- Lines 39-43: append the record's per-run summary values and its host list
(as a single element — `append`, not `extend`).  The `getD 0` defaults are
unreachable for parser output, whose numeric fields are all null or all
non-null (theorem C10); Python would raise later on a mixed record. -/
def pushAcc (a : HopAcc) (r : TracerouteOutput) : HopAcc :=
  ⟨a.avgs ++ [r.avg.getD 0], a.maxs ++ [r.maximum.getD 0],
   a.meds ++ [r.median.getD 0], a.mins ++ [r.minimum.getD 0],
   a.hosts ++ [r.hosts]⟩

/-- Association-list model of the insertion-ordered Python dict `hop_data`:
lookup by hop key. -/
def lookupA : List (String × HopAcc) → String → Option HopAcc
  | [], _ => none
  | (k, v) :: rest, h => if k = h then some v else lookupA rest h

/-- Update the value at the first occurrence of a key. -/
def mapValA : List (String × HopAcc) → String → (HopAcc → HopAcc) → List (String × HopAcc)
  | [], _, _ => []
  | (k, v) :: rest, h, f => if k = h then (k, f v) :: rest else (k, v) :: mapValA rest h f

/-- Grouping step for one record (source lines 29-43): a new hop key is
inserted at the end (Python dicts preserve insertion order), then the record
contributes its values only when `result.avg` is truthy. -/
def aggStep (st : List (String × HopAcc)) (r : TracerouteOutput) : List (String × HopAcc) :=
  let st1 := if (lookupA st r.hop).isSome then st else st ++ [(r.hop, emptyAcc)]
  if truthyAvg r then mapValA st1 r.hop (fun a => pushAcc a r) else st1

/-- The grouping loop of source lines 27-43 over all runs. -/
def buildHopData (runs : List (List TracerouteOutput)) : List (String × HopAcc) :=
  runs.foldl (fun st run => run.foldl aggStep st) []

/-- One final aggregate record (the `hop_stats` dict of source lines 49-56). -/
structure HopStats where
  avg : Option ℚ
  hop : String
  hosts : List (List (String × String))
  max : Option ℚ
  med : Option ℚ
  min : Option ℚ
deriving DecidableEq

/-- Reduction of one hop's accumulator (source lines 49-56): each field is
`None` when its list is empty, and the aggregate maximum and minimum are also
passed through `round(_, 3)`. -/
def hopStatsOf (h : String) (d : HopAcc) : HopStats :=
  ⟨if d.avgs ≠ [] then some (pyRound 3 (pyMean d.avgs)) else none,
   h,
   d.hosts,
   if d.maxs ≠ [] then some (pyRound 3 (pyMax d.maxs)) else none,
   if d.meds ≠ [] then some (pyRound 3 (pyMedian d.meds)) else none,
   if d.mins ≠ [] then some (pyRound 3 (pyMin d.mins)) else none⟩

/-- Sort key `int(x['hop'])` of source line 61.  Python `int()` raises on a
non-numeric hop token; `getD 0` stands in there and the claims only use
numeric hop tokens. -/
def hopKey (r : HopStats) : ℤ :=
  (pyInt r.hop).getD 0

/-- Comparison used by the final sort of source line 61. -/
def statsLe (a b : HopStats) : Prop :=
  hopKey a ≤ hopKey b

instance : DecidableRel statsLe :=
  fun a b => inferInstanceAs (Decidable (hopKey a ≤ hopKey b))

instance : IsTotal HopStats statsLe :=
  ⟨fun a b => Int.le_total (hopKey a) (hopKey b)⟩

instance : IsTrans HopStats statsLe :=
  ⟨fun _ _ _ h1 h2 => le_trans h1 h2⟩

/-- Function `get_statistics_per_hop` (source lines 23-63): group the records
of all runs by hop key, reduce each accumulator, and sort by the numeric hop
value (Python `list.sort` is stable, as is `List.insertionSort`). -/
def get_statistics_per_hop (runs : List (List TracerouteOutput)) : List HopStats :=
  (((buildHopData runs).map fun p => hopStatsOf p.1 p.2).insertionSort statsLe)

/-- Contribution test of source line 38 restricted to one hop key. -/
def isContrib (h : String) (r : TracerouteOutput) : Bool :=
  decide (r.hop = h) && truthyAvg r

/-- The records of hop `h` that pass the truthiness guard, in run order and
line order. -/
def contribL (h : String) (rs : List TracerouteOutput) : List TracerouteOutput :=
  rs.filter (isContrib h)

/-- The accumulator that the grouping loop builds for hop `h`, stated
directly: each field lists the per-record values of the contributing records. -/
def accOfL (h : String) (rs : List TracerouteOutput) : HopAcc :=
  ⟨(contribL h rs).map (fun r => r.avg.getD 0),
   (contribL h rs).map (fun r => r.maximum.getD 0),
   (contribL h rs).map (fun r => r.median.getD 0),
   (contribL h rs).map (fun r => r.minimum.getD 0),
   (contribL h rs).map fun r => r.hosts⟩

/-- Pointwise concatenation of accumulators. -/
def appendAcc (a b : HopAcc) : HopAcc :=
  ⟨a.avgs ++ b.avgs, a.maxs ++ b.maxs, a.meds ++ b.meds, a.mins ++ b.mins,
   a.hosts ++ b.hosts⟩

/-- Prepend one record's values to an accumulator. -/
def consAcc (r : TracerouteOutput) (c : HopAcc) : HopAcc :=
  ⟨r.avg.getD 0 :: c.avgs, r.maximum.getD 0 :: c.maxs, r.median.getD 0 :: c.meds,
   r.minimum.getD 0 :: c.mins, r.hosts :: c.hosts⟩

/-- Keys of the accumulator table, in insertion order. -/
def keysA (st : List (String × HopAcc)) : List String :=
  st.map fun p => p.1

lemma appendAcc_empty_left (a : HopAcc) : appendAcc emptyAcc a = a := by
  cases a
  simp [appendAcc, emptyAcc]

lemma appendAcc_empty_right (a : HopAcc) : appendAcc a emptyAcc = a := by
  cases a
  simp [appendAcc, emptyAcc]

lemma accOfL_nil (h : String) : accOfL h [] = emptyAcc := rfl

lemma accOfL_cons (h : String) (r : TracerouteOutput) (rs : List TracerouteOutput) :
    accOfL h (r :: rs) = if isContrib h r then consAcc r (accOfL h rs) else accOfL h rs := by
  by_cases hc : isContrib h r
  · simp [accOfL, contribL, List.filter_cons, hc, consAcc]
  · simp [accOfL, contribL, List.filter_cons, hc]

lemma appendAcc_push (a : HopAcc) (r : TracerouteOutput) (c : HopAcc) :
    appendAcc (pushAcc a r) c = appendAcc a (consAcc r c) := by
  cases a
  simp [appendAcc, pushAcc, consAcc]

lemma pushAcc_empty (r : TracerouteOutput) : pushAcc emptyAcc r = consAcc r emptyAcc := by
  simp [pushAcc, emptyAcc, consAcc]

lemma appendAcc_cons (r : TracerouteOutput) (c b : HopAcc) :
    appendAcc (consAcc r c) b = consAcc r (appendAcc c b) := by
  cases c
  simp [appendAcc, consAcc]

lemma lookupA_append_some {st : List (String × HopAcc)} {h : String} {a : HopAcc}
    (hs : lookupA st h = some a) (t : List (String × HopAcc)) :
    lookupA (st ++ t) h = some a := by
  induction st with
  | nil => simp [lookupA] at hs
  | cons p rest ih =>
    obtain ⟨k, v⟩ := p
    by_cases hk : k = h
    · simpa [lookupA, hk] using by simpa [lookupA, hk] using hs
    · simp only [lookupA, hk, if_neg, List.cons_append] at hs ⊢
      exact ih hs

lemma lookupA_append_none {st : List (String × HopAcc)} {h : String}
    (hs : lookupA st h = none) (t : List (String × HopAcc)) :
    lookupA (st ++ t) h = lookupA t h := by
  induction st with
  | nil => simp
  | cons p rest ih =>
    obtain ⟨k, v⟩ := p
    by_cases hk : k = h
    · simp [lookupA, hk] at hs
    · simp only [lookupA, hk, if_neg, List.cons_append] at hs ⊢
      exact ih hs

lemma lookupA_mapValA_self (st : List (String × HopAcc)) (k : String) (f : HopAcc → HopAcc) :
    lookupA (mapValA st k f) k = (lookupA st k).map f := by
  induction st with
  | nil => simp [lookupA, mapValA]
  | cons p rest ih =>
    obtain ⟨k0, v⟩ := p
    by_cases hk : k0 = k
    · simp [lookupA, mapValA, hk]
    · simp [lookupA, mapValA, hk, ih]

lemma lookupA_mapValA_ne (st : List (String × HopAcc)) {k h : String} (f : HopAcc → HopAcc)
    (hne : k ≠ h) :
    lookupA (mapValA st k f) h = lookupA st h := by
  induction st with
  | nil => simp [lookupA, mapValA]
  | cons p rest ih =>
    obtain ⟨k0, v⟩ := p
    by_cases hk : k0 = k
    · subst hk
      simp [lookupA, mapValA, hne, ih]
    · by_cases hh : k0 = h
      · simp [lookupA, mapValA, hk, hh, Ne.symm hne]
      · simp [lookupA, mapValA, hk, hh, ih]

lemma lookupA_aggStep_self (st : List (String × HopAcc)) (r : TracerouteOutput) :
    lookupA (aggStep st r) r.hop =
      some (if truthyAvg r then pushAcc ((lookupA st r.hop).getD emptyAcc) r
            else (lookupA st r.hop).getD emptyAcc) := by
  unfold aggStep
  cases hs : lookupA st r.hop with
  | some a =>
    simp only [hs, Option.isSome_some, if_true]
    by_cases ht : truthyAvg r
    · simp [ht, lookupA_mapValA_self, hs]
    · simp [ht, hs]
  | none =>
    have h1 : lookupA (st ++ [(r.hop, emptyAcc)]) r.hop = some emptyAcc := by
      rw [lookupA_append_none hs]
      simp [lookupA]
    simp only [hs, Option.isSome_none, Bool.false_eq_true, if_false]
    by_cases ht : truthyAvg r
    · simp [ht, lookupA_mapValA_self, h1]
    · simp [ht, h1]

lemma lookupA_aggStep_ne (st : List (String × HopAcc)) (r : TracerouteOutput) {h : String}
    (hne : r.hop ≠ h) :
    lookupA (aggStep st r) h = lookupA st h := by
  unfold aggStep
  have h1 : lookupA (if (lookupA st r.hop).isSome then st else st ++ [(r.hop, emptyAcc)]) h =
      lookupA st h := by
    cases hs : lookupA st r.hop with
    | some a => simp [hs]
    | none =>
      simp only [hs, Option.isSome_none, Bool.false_eq_true, if_false]
      cases hh : lookupA st h with
      | some a => rw [lookupA_append_some hh]
      | none =>
        rw [lookupA_append_none hh]
        simp [lookupA, hne]
  by_cases ht : truthyAvg r
  · simp only [ht, if_true]
    rw [lookupA_mapValA_ne _ _ hne, h1]
  · simpa [ht] using h1

lemma isContrib_eq_true_iff (h : String) (r : TracerouteOutput) :
    isContrib h r = true ↔ r.hop = h ∧ truthyAvg r = true := by
  simp [isContrib]

lemma lookupA_foldl_some (rs : List TracerouteOutput) :
    ∀ (st : List (String × HopAcc)) (h : String) (a : HopAcc), lookupA st h = some a →
      lookupA (rs.foldl aggStep st) h = some (appendAcc a (accOfL h rs)) := by
  induction rs with
  | nil =>
    intro st h a hs
    simpa [accOfL_nil, appendAcc_empty_right] using hs
  | cons r rs ih =>
    intro st h a hs
    rw [List.foldl_cons]
    by_cases hh : r.hop = h
    · subst hh
      have hstep := lookupA_aggStep_self st r
      rw [hs] at hstep
      by_cases ht : truthyAvg r
      · have := ih (aggStep st r) r.hop (pushAcc a r) (by simpa [ht] using hstep)
        rw [this, accOfL_cons]
        simp [isContrib, ht, appendAcc_push]
      · have := ih (aggStep st r) r.hop a (by simpa [ht] using hstep)
        rw [this, accOfL_cons]
        simp [isContrib, ht]
    · have hstep := lookupA_aggStep_ne st r hh
      rw [hs] at hstep
      have := ih (aggStep st r) h a hstep
      rw [this, accOfL_cons]
      simp [isContrib, hh]

lemma lookupA_foldl_none (rs : List TracerouteOutput) :
    ∀ (st : List (String × HopAcc)) (h : String), lookupA st h = none →
      lookupA (rs.foldl aggStep st) h =
        if h ∈ rs.map (fun r => r.hop) then some (accOfL h rs) else none := by
  induction rs with
  | nil =>
    intro st h hs
    simpa using hs
  | cons r rs ih =>
    intro st h hs
    rw [List.foldl_cons]
    by_cases hh : r.hop = h
    · subst hh
      have hstep := lookupA_aggStep_self st r
      rw [hs] at hstep
      by_cases ht : truthyAvg r
      · have := lookupA_foldl_some rs (aggStep st r) r.hop (pushAcc emptyAcc r)
          (by simpa [ht] using hstep)
        rw [this, accOfL_cons]
        simp [isContrib, ht, pushAcc_empty, appendAcc_cons, appendAcc_empty_left]
      · have := lookupA_foldl_some rs (aggStep st r) r.hop emptyAcc
          (by simpa [ht] using hstep)
        rw [this, accOfL_cons]
        simp [isContrib, ht, appendAcc_empty_left]
    · have hstep := lookupA_aggStep_ne st r hh
      rw [hs] at hstep
      have := ih (aggStep st r) h hstep
      rw [this, accOfL_cons]
      simp [isContrib, hh, Ne.symm hh]

lemma buildHopData_eq_foldl (runs : List (List TracerouteOutput)) :
    buildHopData runs = runs.flatten.foldl aggStep [] := by
  suffices h : ∀ st, runs.foldl (fun st run => run.foldl aggStep st) st =
      runs.flatten.foldl aggStep st by
    exact h []
  induction runs with
  | nil => intro st; rfl
  | cons run rest ih =>
    intro st
    rw [List.foldl_cons, List.flatten_cons, List.foldl_append]
    exact ih (run.foldl aggStep st)

lemma lookupA_build (runs : List (List TracerouteOutput)) (h : String) :
    lookupA (buildHopData runs) h =
      if h ∈ runs.flatten.map (fun r => r.hop) then some (accOfL h runs.flatten) else none := by
  rw [buildHopData_eq_foldl]
  exact lookupA_foldl_none runs.flatten [] h rfl

lemma keysA_mapValA (st : List (String × HopAcc)) (k : String) (f : HopAcc → HopAcc) :
    keysA (mapValA st k f) = keysA st := by
  induction st with
  | nil => rfl
  | cons p rest ih =>
    obtain ⟨k0, v⟩ := p
    by_cases hk : k0 = k
    · simp [keysA, mapValA, hk]
    · simpa [keysA, mapValA, hk] using ih

lemma lookupA_isSome_iff (st : List (String × HopAcc)) (h : String) :
    (lookupA st h).isSome = true ↔ h ∈ keysA st := by
  induction st with
  | nil => simp [lookupA, keysA]
  | cons p rest ih =>
    obtain ⟨k, v⟩ := p
    by_cases hk : k = h
    · simp [lookupA, keysA, hk]
    · simp [lookupA, keysA, hk, ih, Ne.symm hk]

lemma nodup_keysA_aggStep (st : List (String × HopAcc)) (r : TracerouteOutput)
    (hnd : (keysA st).Nodup) : (keysA (aggStep st r)).Nodup := by
  unfold aggStep
  have h1 : (keysA (if (lookupA st r.hop).isSome then st else st ++ [(r.hop, emptyAcc)])).Nodup := by
    by_cases hs : (lookupA st r.hop).isSome
    · simpa [hs] using hnd
    · have hm : r.hop ∉ keysA st := fun hmem => hs ((lookupA_isSome_iff st r.hop).mpr hmem)
      simp only [hs, Bool.false_eq_true, if_false]
      have : keysA (st ++ [(r.hop, emptyAcc)]) = keysA st ++ [r.hop] := by
        simp [keysA]
      rw [this]
      simpa [List.nodup_append] using ⟨hnd, hm⟩
  by_cases ht : truthyAvg r
  · simpa [ht, keysA_mapValA] using h1
  · simpa [ht] using h1

lemma nodup_keysA_build (runs : List (List TracerouteOutput)) :
    (keysA (buildHopData runs)).Nodup := by
  rw [buildHopData_eq_foldl]
  suffices h : ∀ (rs : List TracerouteOutput) (st : List (String × HopAcc)),
      (keysA st).Nodup → (keysA (rs.foldl aggStep st)).Nodup by
    exact h runs.flatten [] (by simp [keysA])
  intro rs
  induction rs with
  | nil => intro st hnd; exact hnd
  | cons r rest ih =>
    intro st hnd
    exact ih (aggStep st r) (nodup_keysA_aggStep st r hnd)

lemma lookupA_of_mem {st : List (String × HopAcc)} (hnd : (keysA st).Nodup)
    {p : String × HopAcc} (hp : p ∈ st) : lookupA st p.1 = some p.2 := by
  induction st with
  | nil => cases hp
  | cons q rest ih =>
    obtain ⟨k, v⟩ := q
    rcases List.mem_cons.mp hp with he | hm
    · subst he
      simp [lookupA]
    · have hk : k ≠ p.1 := by
        intro he
        have : p.1 ∈ keysA rest := List.mem_map.mpr ⟨p, hm, rfl⟩
        rw [← he] at this
        exact (List.nodup_cons.mp (by simpa [keysA] using hnd)).1 this
      have hnd2 : (keysA rest).Nodup := (List.nodup_cons.mp (by simpa [keysA] using hnd)).2
      simp [lookupA, hk, ih hnd2 hm]

lemma mem_of_lookupA {st : List (String × HopAcc)} {k : String} {v : HopAcc}
    (hl : lookupA st k = some v) : (k, v) ∈ st := by
  induction st with
  | nil => simp [lookupA] at hl
  | cons q rest ih =>
    obtain ⟨k0, v0⟩ := q
    by_cases hk : k0 = k
    · subst hk
      have h2 : some v0 = some v := by simpa [lookupA] using hl
      cases h2
      exact List.mem_cons_self _ _
    · simp only [lookupA, hk, if_false] at hl
      exact List.mem_cons_of_mem _ (ih hl)

lemma mem_gs_iff (runs : List (List TracerouteOutput)) (r : HopStats) :
    r ∈ get_statistics_per_hop runs ↔
      ∃ p ∈ buildHopData runs, hopStatsOf p.1 p.2 = r := by
  unfold get_statistics_per_hop
  rw [List.mem_insertionSort, List.mem_map]

lemma gs_mem_eq {runs : List (List TracerouteOutput)} {r : HopStats}
    (hr : r ∈ get_statistics_per_hop runs) :
    r.hop ∈ runs.flatten.map (fun t => t.hop) ∧
      r = hopStatsOf r.hop (accOfL r.hop runs.flatten) := by
  obtain ⟨p, hp, he⟩ := (mem_gs_iff runs r).mp hr
  have hl : lookupA (buildHopData runs) p.1 = some p.2 :=
    lookupA_of_mem (nodup_keysA_build runs) hp
  rw [lookupA_build] at hl
  by_cases hm : p.1 ∈ runs.flatten.map (fun t => t.hop)
  · rw [if_pos hm] at hl
    have hacc : p.2 = accOfL p.1 runs.flatten := by
      exact (Option.some_inj.mp hl).symm
    have hhop : r.hop = p.1 := by rw [← he]; rfl
    constructor
    · rw [hhop]; exact hm
    · rw [hhop, ← he, hacc]
  · rw [if_neg hm] at hl
    cases hl

lemma gs_mem_of_hop {runs : List (List TracerouteOutput)} {h : String}
    (hm : h ∈ runs.flatten.map (fun t => t.hop)) :
    hopStatsOf h (accOfL h runs.flatten) ∈ get_statistics_per_hop runs := by
  have hl : lookupA (buildHopData runs) h = some (accOfL h runs.flatten) := by
    rw [lookupA_build, if_pos hm]
  exact (mem_gs_iff runs _).mpr ⟨(h, accOfL h runs.flatten), mem_of_lookupA hl, rfl⟩

/-- Shape of every record one line can emit: either the all-null timeout
record, or a record computed from a nonempty sample list, with `minimum`
set to `max(times)` by source line 130. -/
lemma lineRecords_shape {parts : List String} {out : List TracerouteOutput}
    (hp : lineRecords parts = Except.ok out) {r : TracerouteOutput} (hr : r ∈ out) :
    (r.avg = none ∧ r.maximum = none ∧ r.median = none ∧ r.minimum = none ∧ r.hosts = []) ∨
    (∃ ts : List ℚ, ts ≠ [] ∧ r.avg = some (pyRound 2 (pyMean ts)) ∧
      r.maximum = some (pyMax ts) ∧ r.median = some (pyMedian ts) ∧
      r.minimum = some (pyMax ts)) := by
  cases parts with
  | nil => simp [lineRecords] at hp
  | cons hopN rest =>
    rw [lineRecords] at hp
    by_cases hto : rest.take 3 = ["*", "*", "*"]
    · rw [if_pos hto] at hp
      have : out = [⟨none, hopN, [], none, none, none⟩] := by
        cases hp
        rfl
      subst this
      rcases List.mem_singleton.mp hr with he
      subst he
      left
      exact ⟨rfl, rfl, rfl, rfl, rfl⟩
    · rw [if_neg hto] at hp
      by_cases hts : (scanTokens hopN rest).1 = []
      · simp only [hts, if_pos] at hp
        have : out = [] := by cases hp; rfl
        subst this
        cases hr
      · simp only [hts, if_neg] at hp
        have : out = [⟨some (pyRound 2 (pyMean (scanTokens hopN rest).1)), hopN,
            (scanTokens hopN rest).2, some (pyMax (scanTokens hopN rest).1),
            some (pyMedian (scanTokens hopN rest).1),
            some (pyMax (scanTokens hopN rest).1)⟩] := by
          cases hp
          rfl
        subst this
        rcases List.mem_singleton.mp hr with he
        subst he
        right
        exact ⟨(scanTokens hopN rest).1, hts, rfl, rfl, rfl, rfl⟩

/-- Shape of every record `parseLines` can emit. -/
lemma parseLines_shape :
    ∀ {lines : List String} {out : List TracerouteOutput},
      parseLines lines = Except.ok out → ∀ r ∈ out,
      (r.avg = none ∧ r.maximum = none ∧ r.median = none ∧ r.minimum = none ∧ r.hosts = []) ∨
      (∃ ts : List ℚ, ts ≠ [] ∧ r.avg = some (pyRound 2 (pyMean ts)) ∧
        r.maximum = some (pyMax ts) ∧ r.median = some (pyMedian ts) ∧
        r.minimum = some (pyMax ts)) := by
  intro lines
  induction lines with
  | nil =>
    intro out hp r hr
    have : out = [] := by
      simpa [parseLines] using hp.symm
    subst this
    cases hr
  | cons ln rest ih =>
    intro out hp r hr
    cases hlr : lineRecords (pySplit ln) with
    | error e => rw [parseLines, hlr] at hp; cases hp
    | ok rs =>
      cases hpl : parseLines rest with
      | error e => rw [parseLines, hlr, hpl] at hp; cases hp
      | ok more =>
        rw [parseLines, hlr, hpl] at hp
        have : out = rs ++ more := by
          cases hp
          rfl
        subst this
        rcases List.mem_append.mp hr with hm | hm
        · exact lineRecords_shape hlr hm
        · exact ih hpl r hm

/-- Shape of every record the parser emits for a run. -/
lemma parse_shape {lines : List String} {out : List TracerouteOutput}
    (hp : parse_traceroute_output lines = Except.ok out) {r : TracerouteOutput}
    (hr : r ∈ out) :
    (r.avg = none ∧ r.maximum = none ∧ r.median = none ∧ r.minimum = none ∧ r.hosts = []) ∨
    (∃ ts : List ℚ, ts ≠ [] ∧ r.avg = some (pyRound 2 (pyMean ts)) ∧
      r.maximum = some (pyMax ts) ∧ r.median = some (pyMedian ts) ∧
      r.minimum = some (pyMax ts)) :=
  parseLines_shape hp r hr

lemma roundHalfEven_intCast (z : ℤ) : roundHalfEven (z : ℚ) = z := by
  unfold roundHalfEven
  rw [Int.floor_intCast]
  norm_num

lemma pyRound_three_of_two (q : ℚ) : pyRound 3 (pyRound 2 q) = pyRound 2 q := by
  unfold pyRound
  have h1 : ((roundHalfEven (q * (10 : ℚ) ^ (2 : ℕ)) : ℚ) / (10 : ℚ) ^ (2 : ℕ)) * (10 : ℚ) ^ (3 : ℕ) =
      ((10 * roundHalfEven (q * (10 : ℚ) ^ (2 : ℕ)) : ℤ) : ℚ) := by
    push_cast
    ring
  rw [h1, roundHalfEven_intCast]
  push_cast
  ring

lemma pyMean_pair (a : ℚ) : pyMean [a, a] = a := by
  simp [pyMean]

lemma pyMedian_pair (a : ℚ) : pyMedian [a, a] = a := by
  unfold pyMedian
  simp [List.insertionSort, List.orderedInsert]

/-! Concrete runs used by the counterexamples and witnesses below; each is the
parse of the traceroute text shown next to it. -/

/-- Parse of `"1  a (x)  1.0 ms  b (y)  2.0 ms"`. -/
def exRun1 : List TracerouteOutput :=
  [⟨some (3 / 2), "1", [("a", "(x)"), ("b", "(y)")], some 2, some (3 / 2), some 2⟩]

/-- Parse of `"1  c (z)  3.0 ms"`. -/
def exRun2 : List TracerouteOutput :=
  [⟨some 3, "1", [("c", "(z)")], some 3, some 3, some 3⟩]

/-- Parse of `"1  a (x)  1.23456 ms"`. -/
def exRun3 : List TracerouteOutput :=
  [⟨some (123 / 100), "1", [("a", "(x)")], some (123456 / 100000),
    some (123456 / 100000), some (123456 / 100000)⟩]

/-- Parse of `"1  a (x)  0 ms"`: a record whose average is exactly 0. -/
def exRun4 : List TracerouteOutput :=
  [⟨some 0, "1", [("a", "(x)")], some 0, some 0, some 0⟩]

/-- Parse of `"1  a (x)  1.2345 ms  2.0 ms"`: its median, 1.61725, has more
than three decimal places. -/
def exRun5 : List TracerouteOutput :=
  [⟨some (162 / 100), "1", [("a", "(x)")], some 2, some (161725 / 100000), some 2⟩]

/-- Parse of `"05  *  *  *"`. -/
def exRunA : List TracerouteOutput :=
  [⟨none, "05", [], none, none, none⟩]

/-- Parse of `"5  *  *  *"`. -/
def exRunB : List TracerouteOutput :=
  [⟨none, "5", [], none, none, none⟩]

/-- C1.  The spec's scenario line `"5  192.168.1.1 (192.168.1.1)  1.234 ms
1.456 ms  1.789 ms"` must yield minimum 1.234, the smallest sample.  The code
(source line 130, `minimum = max(times)`) instead stores 1.789, a second
maximum, so `minimum ≤ median` also fails; the spec itself flags this line as
a defect to correct (section 9). -/
theorem C1_minimum_defect_eval :
    parse_traceroute_output ["traceroute to host",
        "5  192.168.1.1 (192.168.1.1)  1.234 ms  1.456 ms  1.789 ms"] =
      Except.ok [⟨some (149 / 100), "5", [("192.168.1.1", "(192.168.1.1)")],
        some (1789 / 1000), some (1456 / 1000), some (1789 / 1000)⟩] ∧
    pyMin [1234 / 1000, 1456 / 1000, 1789 / 1000] = 1234 / 1000 ∧
    ¬ ((1789 : ℚ) / 1000 ≤ 1456 / 1000) :=
  ⟨by decide, by decide, by decide⟩

/-- C2 counterexample.  A non-timeout line with a host token but no readable
latency emits no record at all: the parse of the run is `ok []`, with no
record for hop `"7"`, refuting the claim that such a line still yields a
HopProbeResult with null numeric fields. -/
theorem C2_zero_sample_line_emits_no_record :
    parse_traceroute_output ["traceroute to host", "7  hostA (1.2.3.4)"] = Except.ok [] :=
  by decide

/-- C2 amended.  A non-timeout line from which zero latency samples are
parsed is dropped: the parser emits no record for it (its collected hosts are
discarded), rather than a record with null numeric fields. -/
theorem C2_zero_sample_line_dropped (hop : String) (rest : List String)
    (hto : rest.take 3 ≠ ["*", "*", "*"])
    (hts : (scanTokens hop rest).1 = []) :
    lineRecords (hop :: rest) = Except.ok [] := by
  rw [lineRecords, if_neg hto]
  simp [hts]

/-- C2 witness: the amended theorem applied to the dropped line `"7  hostA
(1.2.3.4)"`. -/
theorem C2_zero_sample_line_dropped_witness :
    (["hostA", "(1.2.3.4)"].take 3 ≠ ["*", "*", "*"] ∧
      (scanTokens "7" ["hostA", "(1.2.3.4)"]).1 = []) ∧
    lineRecords ["7", "hostA", "(1.2.3.4)"] = Except.ok [] :=
  ⟨⟨by decide, by decide⟩,
    C2_zero_sample_line_dropped "7" ["hostA", "(1.2.3.4)"] (by decide) (by decide)⟩

/-- C3 counterexample.  Two runs at hop `"1"` carry 2 + 1 = 3 host pairs, but
the aggregate host list is the two-element nested list of per-run host lists
(`append`, not `extend`, at source line 43), so its length is 2, not the
claimed 3. -/
theorem C3_hosts_not_flat_concat :
    parse_traceroute_output ["hdr", "1  a (x)  1.0 ms  b (y)  2.0 ms"] = Except.ok exRun1 ∧
    parse_traceroute_output ["hdr", "1  c (z)  3.0 ms"] = Except.ok exRun2 ∧
    (get_statistics_per_hop [exRun1, exRun2]).map (fun r => r.hosts) =
      [[[("a", "(x)"), ("b", "(y)")], [("c", "(z)")]]] ∧
    ((get_statistics_per_hop [exRun1, exRun2]).map fun r => r.hosts.length) = [2] ∧
    ((exRun1 ++ exRun2).map fun t => t.hosts.length).sum = 3 :=
  ⟨by decide, by decide, by decide, by decide, by decide⟩

/-- C3 amended.  The aggregate host list for a hop is the list of the host
lists of that hop's contributing records (one nested entry per contributing
record, in run order then line order, duplicates retained); its length is the
number of contributing records, not the total host-pair count. -/
theorem C3_hosts_nested_per_contributing_record (runs : List (List TracerouteOutput))
    (r : HopStats) (hr : r ∈ get_statistics_per_hop runs) :
    r.hosts = (contribL r.hop runs.flatten).map (fun t => t.hosts) ∧
    r.hosts.length = (contribL r.hop runs.flatten).length := by
  obtain ⟨-, h2⟩ := gs_mem_eq hr
  constructor
  · conv_lhs => rw [h2]
    rfl
  · conv_lhs => rw [h2]
    simp [hopStatsOf, accOfL]

/-- C3 witness: the amended theorem applied to the two-run example. -/
theorem C3_hosts_nested_witness :
    ((⟨some (9 / 4), "1", [[("a", "(x)"), ("b", "(y)")], [("c", "(z)")]],
        some 3, some (9 / 4), some 2⟩ : HopStats) ∈
      get_statistics_per_hop [exRun1, exRun2]) ∧
    ((⟨some (9 / 4), "1", [[("a", "(x)"), ("b", "(y)")], [("c", "(z)")]],
        some 3, some (9 / 4), some 2⟩ : HopStats).hosts =
      (contribL "1" ([exRun1, exRun2] : List (List TracerouteOutput)).flatten).map
        (fun t => t.hosts) ∧
      (⟨some (9 / 4), "1", [[("a", "(x)"), ("b", "(y)")], [("c", "(z)")]],
        some 3, some (9 / 4), some 2⟩ : HopStats).hosts.length =
        (contribL "1" ([exRun1, exRun2] : List (List TracerouteOutput)).flatten).length) :=
  ⟨by decide, C3_hosts_nested_per_contributing_record [exRun1, exRun2] _ (by decide)⟩

/-- C4 counterexample.  With a single contributing record whose maximum (and
stored minimum) is 1.23456, the aggregate maximum and minimum are rounded to
three decimals (source lines 53 and 55), giving 1.235 rather than the
verbatim 1.23456 the claim demands. -/
theorem C4_aggregate_extremes_rounded_cex :
    parse_traceroute_output ["hdr", "1  a (x)  1.23456 ms"] = Except.ok exRun3 ∧
    pyMax (exRun3.map fun t => t.maximum.getD 0) = 123456 / 100000 ∧
    (get_statistics_per_hop [exRun3]).map (fun r => r.max) = [some (1235 / 1000)] ∧
    (get_statistics_per_hop [exRun3]).map (fun r => r.min) = [some (1235 / 1000)] ∧
    ((1235 : ℚ) / 1000 ≠ 123456 / 100000) :=
  ⟨by decide, by decide, by decide, by decide, by decide⟩

/-- C4 amended.  For a hop with at least one contributing record, the
aggregate maximum is `round(max(per-run maxima), 3)` and the aggregate
minimum is `round(min(per-run minima), 3)`: the extremes of the per-run
values, but rounded to three decimals rather than taken verbatim. -/
theorem C4_aggregate_extremes_rounded (runs : List (List TracerouteOutput))
    (r : HopStats) (hr : r ∈ get_statistics_per_hop runs)
    (hne : contribL r.hop runs.flatten ≠ []) :
    r.max = some (pyRound 3 (pyMax ((contribL r.hop runs.flatten).map fun t =>
      t.maximum.getD 0))) ∧
    r.min = some (pyRound 3 (pyMin ((contribL r.hop runs.flatten).map fun t =>
      t.minimum.getD 0))) := by
  obtain ⟨-, h2⟩ := gs_mem_eq hr
  constructor
  · conv_lhs => rw [h2]
    simp [hopStatsOf, accOfL, hne]
  · conv_lhs => rw [h2]
    simp [hopStatsOf, accOfL, hne]

/-- C4 witness: the amended theorem applied to the single-record example. -/
theorem C4_aggregate_extremes_rounded_witness :
    ((⟨some (123 / 100), "1", [[("a", "(x)")]], some (1235 / 1000),
        some (1235 / 1000), some (1235 / 1000)⟩ : HopStats) ∈
      get_statistics_per_hop [exRun3] ∧
      contribL "1" ([exRun3] : List (List TracerouteOutput)).flatten ≠ []) ∧
    ((⟨some (123 / 100), "1", [[("a", "(x)")]], some (1235 / 1000),
        some (1235 / 1000), some (1235 / 1000)⟩ : HopStats).max =
      some (pyRound 3 (pyMax ((contribL "1"
        ([exRun3] : List (List TracerouteOutput)).flatten).map fun t =>
          t.maximum.getD 0))) ∧
     (⟨some (123 / 100), "1", [[("a", "(x)")]], some (1235 / 1000),
        some (1235 / 1000), some (1235 / 1000)⟩ : HopStats).min =
      some (pyRound 3 (pyMin ((contribL "1"
        ([exRun3] : List (List TracerouteOutput)).flatten).map fun t =>
          t.minimum.getD 0)))) :=
  ⟨⟨by decide, by decide⟩,
    C4_aggregate_extremes_rounded [exRun3] _ (by decide) (by decide)⟩

/-- C5 counterexample.  The record parsed from `"1  a (x)  0 ms"` has all
four numeric fields non-null (average exactly 0.0), yet the `if result.avg:`
guard of source line 38 treats it as falsy: the hop aggregates to all-null
fields and an empty host list, so the record contributed nothing. -/
theorem C5_zero_avg_drops_record_cex :
    parse_traceroute_output ["hdr", "1  a (x)  0 ms"] = Except.ok exRun4 ∧
    (exRun4.map fun t => t.avg) = [some 0] ∧
    get_statistics_per_hop [exRun4] = [⟨none, "1", [], none, none, none⟩] :=
  ⟨by decide, by decide, by decide⟩

/-- C5 amended.  A per-run record contributes its avg, maximum, median,
minimum and hosts exactly when its average is non-null AND nonzero (Python
truthiness); a record whose average is null, or exactly 0.0, contributes
nothing.  Every aggregate record equals the reduction of exactly the
contributing records at its hop. -/
theorem C5_contribution_requires_truthy_avg (runs : List (List TracerouteOutput))
    (r : HopStats) (hr : r ∈ get_statistics_per_hop runs) :
    r = hopStatsOf r.hop (accOfL r.hop runs.flatten) ∧
    ∀ t : TracerouteOutput, isContrib r.hop t = true ↔
      (t.hop = r.hop ∧ ∃ a : ℚ, t.avg = some a ∧ a ≠ 0) := by
  refine ⟨(gs_mem_eq hr).2, ?_⟩
  intro t
  rw [isContrib_eq_true_iff]
  constructor
  · rintro ⟨hh, ht⟩
    refine ⟨hh, ?_⟩
    unfold truthyAvg at ht
    cases ha : t.avg with
    | none => rw [ha] at ht; cases ht
    | some a =>
      rw [ha] at ht
      exact ⟨a, rfl, by simpa using ht⟩
  · rintro ⟨hh, a, ha, hne⟩
    exact ⟨hh, by simp [truthyAvg, ha, hne]⟩

/-- C5 witness: the amended theorem applied to the zero-average example. -/
theorem C5_contribution_witness :
    ((⟨none, "1", [], none, none, none⟩ : HopStats) ∈ get_statistics_per_hop [exRun4]) ∧
    ((⟨none, "1", [], none, none, none⟩ : HopStats) =
      hopStatsOf "1" (accOfL "1" ([exRun4] : List (List TracerouteOutput)).flatten) ∧
     ∀ t : TracerouteOutput, isContrib "1" t = true ↔
      (t.hop = "1" ∧ ∃ a : ℚ, t.avg = some a ∧ a ≠ 0)) :=
  ⟨by decide, C5_contribution_requires_truthy_avg [exRun4] _ (by decide)⟩

/-- C6.  A hop index present in some run all of whose records are timeout
records (null average) still appears in the final aggregate, with an empty
host list and all four numeric fields null: it is never silently dropped. -/
theorem C6_timeout_hop_kept (runs : List (List TracerouteOutput)) (h : String)
    (hmem : h ∈ runs.flatten.map (fun t => t.hop))
    (hnull : ∀ t ∈ runs.flatten, t.hop = h → t.avg = none) :
    ∃ r ∈ get_statistics_per_hop runs,
      r.hop = h ∧ r.avg = none ∧ r.max = none ∧ r.med = none ∧ r.min = none ∧
        r.hosts = [] := by
  have hc : contribL h runs.flatten = [] := by
    rw [contribL, List.filter_eq_nil_iff]
    intro t htm
    by_cases hh : t.hop = h
    · simp [isContrib, truthyAvg, hnull t htm hh]
    · simp [isContrib, hh]
  have hacc : accOfL h runs.flatten = emptyAcc := by
    simp [accOfL, hc, emptyAcc]
  refine ⟨hopStatsOf h (accOfL h runs.flatten), gs_mem_of_hop hmem, ?_⟩
  rw [hacc]
  exact ⟨rfl, by simp [hopStatsOf, emptyAcc], by simp [hopStatsOf, emptyAcc],
    by simp [hopStatsOf, emptyAcc], by simp [hopStatsOf, emptyAcc], rfl⟩

/-- C6 witness: two runs that both time out at hop `"3"`. -/
theorem C6_timeout_hop_kept_witness :
    ("3" ∈ ([[⟨none, "3", [], none, none, none⟩],
        [⟨none, "3", [], none, none, none⟩]] : List (List TracerouteOutput)).flatten.map
        (fun t => t.hop) ∧
      ∀ t ∈ ([[⟨none, "3", [], none, none, none⟩],
        [⟨none, "3", [], none, none, none⟩]] : List (List TracerouteOutput)).flatten,
        t.hop = "3" → t.avg = none) ∧
    ∃ r ∈ get_statistics_per_hop
        ([[⟨none, "3", [], none, none, none⟩],
          [⟨none, "3", [], none, none, none⟩]] : List (List TracerouteOutput)),
      r.hop = "3" ∧ r.avg = none ∧ r.max = none ∧ r.med = none ∧ r.min = none ∧
        r.hosts = [] :=
  ⟨⟨by decide, by decide⟩,
    C6_timeout_hop_kept _ "3" (by decide) (by decide)⟩

/-- C7 counterexample.  The hop tokens `"05"` and `"5"` are distinct keys
with the same numeric value 5: the final sequence holds both records with
equal sort keys, so it is not strictly ascending by numeric hop value. -/
theorem C7_equal_numeric_hops_cex :
    parse_traceroute_output ["hdr", "05  *  *  *"] = Except.ok exRunA ∧
    parse_traceroute_output ["hdr", "5  *  *  *"] = Except.ok exRunB ∧
    (get_statistics_per_hop [exRunA, exRunB]).map (fun r => (r.hop, hopKey r)) =
      [("05", 5), ("5", 5)] ∧
    ¬ List.Pairwise (fun a b => hopKey a < hopKey b)
        (get_statistics_per_hop [exRunA, exRunB]) :=
  ⟨by decide, by decide, by decide, by decide⟩

/-- C7 amended.  The final aggregate sequence is always sorted in
non-decreasing numeric hop order, for every input without exception; and it
is strictly ascending whenever the numeric values of its hop keys are
pairwise distinct (distinct hop strings can share a numeric value, e.g.
`"05"` and `"5"`). -/
theorem C7_sorted_by_numeric_hop (runs : List (List TracerouteOutput)) :
    List.Sorted statsLe (get_statistics_per_hop runs) ∧
    (((get_statistics_per_hop runs).map hopKey).Nodup →
      List.Pairwise (fun a b => hopKey a < hopKey b) (get_statistics_per_hop runs)) := by
  have hs : List.Sorted statsLe (get_statistics_per_hop runs) :=
    List.sorted_insertionSort statsLe _
  refine ⟨hs, fun hk => ?_⟩
  have hp : List.Pairwise (fun a b => hopKey a ≠ hopKey b) (get_statistics_per_hop runs) :=
    List.pairwise_map.mp hk
  have hsp : List.Pairwise statsLe (get_statistics_per_hop runs) := hs
  exact (hsp.and hp).imp fun hab => lt_of_le_of_ne hab.1 hab.2

/-- C7 witness: on the equal-key input `"05"`/`"5"` the unconditional
non-decreasing clause holds, and on hops `"2"` and `"10"`, whose keys are
distinct, the sequence is strictly ascending numerically (10 after 2, not
lexically). -/
theorem C7_sorted_witness :
    List.Sorted statsLe (get_statistics_per_hop [exRunA, exRunB]) ∧
    (((get_statistics_per_hop [[⟨none, "10", [], none, none, none⟩],
        [⟨none, "2", [], none, none, none⟩]]).map hopKey).Nodup ∧
     List.Pairwise (fun a b => hopKey a < hopKey b)
        (get_statistics_per_hop [[⟨none, "10", [], none, none, none⟩],
          [⟨none, "2", [], none, none, none⟩]])) :=
  ⟨(C7_sorted_by_numeric_hop [exRunA, exRunB]).1,
    by decide,
    (C7_sorted_by_numeric_hop [[⟨none, "10", [], none, none, none⟩],
      [⟨none, "2", [], none, none, none⟩]]).2 (by decide)⟩

/-- C8 counterexample.  A run whose hop `"1"` has samples 1.2345 and 2.0 has
per-run median 1.61725; aggregating that run twice yields aggregate median
`round(1.61725, 3) = 1.617` (source line 54), not the per-run median. -/
theorem C8_duplicate_run_median_rounded_cex :
    parse_traceroute_output ["hdr", "1  a (x)  1.2345 ms  2.0 ms"] = Except.ok exRun5 ∧
    (exRun5.map fun t => t.median) = [some (161725 / 100000)] ∧
    (get_statistics_per_hop [exRun5, exRun5]).map (fun r => r.med) =
      [some (1617 / 1000)] ∧
    ((161725 : ℚ) / 100000 ≠ 1617 / 1000) :=
  ⟨by decide, by decide, by decide, by decide⟩

/-- C8 amended.  Feeding one parsed run in twice yields, at each hop with a
single contributing record, an aggregate average equal to that record's
average (the parser's 2-decimal average survives the 3-decimal re-round), and
an aggregate median equal to the record's median rounded to 3 decimals —
equal to the median itself only when it has at most three decimal places. -/
theorem C8_duplicate_run_aggregate (lines : List String) (out : List TracerouteOutput)
    (rec : TracerouteOutput) (h : String)
    (hp : parse_traceroute_output lines = Except.ok out)
    (hone : out.filter (fun t => decide (t.hop = h)) = [rec])
    (ht : truthyAvg rec = true) :
    ∃ r ∈ get_statistics_per_hop [out, out],
      r.hop = h ∧ r.avg = rec.avg ∧ r.med = some (pyRound 3 (rec.median.getD 0)) := by
  have hrecf : rec ∈ out.filter (fun t => decide (t.hop = h)) := by
    rw [hone]
    exact List.mem_singleton_self rec
  have hrec_mem : rec ∈ out := (List.mem_filter.mp hrecf).1
  have hhop : rec.hop = h := by
    have := (List.mem_filter.mp hrecf).2
    simpa using this
  have hcl : contribL h out = [rec] := by
    have h1 : contribL h out = out.filter (fun t => truthyAvg t && decide (t.hop = h)) := by
      rw [contribL]
      apply List.filter_congr
      intro t _
      exact Bool.and_comm _ _
    rw [h1, ← List.filter_filter, hone]
    simp [List.filter, ht]
  have hflat : ([out, out] : List (List TracerouteOutput)).flatten = out ++ out := by
    simp
  have hca2 : contribL h (out ++ out) = [rec, rec] := by
    show (out ++ out).filter (isContrib h) = [rec, rec]
    rw [List.filter_append, show out.filter (isContrib h) = [rec] from hcl]
    rfl
  have hm : h ∈ ([out, out] : List (List TracerouteOutput)).flatten.map (fun t => t.hop) := by
    rw [hflat]
    exact List.mem_map.mpr ⟨rec, List.mem_append.mpr (Or.inl hrec_mem), hhop⟩
  rcases parse_shape hp hrec_mem with hn | ⟨ts, hts, h1, _, h3, -⟩
  · rw [show truthyAvg rec = false from by simp [truthyAvg, hn.1]] at ht
    cases ht
  · refine ⟨hopStatsOf h (accOfL h (([out, out] : List (List TracerouteOutput)).flatten)),
      gs_mem_of_hop hm, rfl, ?_, ?_⟩
    · have havg : (accOfL h (([out, out] : List (List TracerouteOutput)).flatten)).avgs =
          [rec.avg.getD 0, rec.avg.getD 0] := by
        simp [accOfL, hflat, hca2]
      show (hopStatsOf h _).avg = rec.avg
      rw [hopStatsOf]
      simp only [havg]
      rw [if_pos (by simp)]
      rw [pyMean_pair]
      rw [h1]
      simp only [Option.getD_some]
      rw [pyRound_three_of_two]
    · have hmed : (accOfL h (([out, out] : List (List TracerouteOutput)).flatten)).meds =
          [rec.median.getD 0, rec.median.getD 0] := by
        simp [accOfL, hflat, hca2]
      show (hopStatsOf h _).med = some (pyRound 3 (rec.median.getD 0))
      rw [hopStatsOf]
      simp only [hmed]
      rw [if_pos (by simp)]
      rw [pyMedian_pair]

/-- C8 witness: the amended theorem applied to the run parsed from
`"1  a (x)  1.2345 ms  2.0 ms"`, fed in twice. -/
theorem C8_duplicate_run_witness :
    (parse_traceroute_output ["hdr", "1  a (x)  1.2345 ms  2.0 ms"] = Except.ok exRun5 ∧
      exRun5.filter (fun t => decide (t.hop = "1")) =
        [⟨some (162 / 100), "1", [("a", "(x)")], some 2, some (161725 / 100000), some 2⟩] ∧
      truthyAvg ⟨some (162 / 100), "1", [("a", "(x)")], some 2,
        some (161725 / 100000), some 2⟩ = true) ∧
    ∃ r ∈ get_statistics_per_hop [exRun5, exRun5],
      r.hop = "1" ∧
        r.avg = (⟨some (162 / 100), "1", [("a", "(x)")], some 2,
          some (161725 / 100000), some 2⟩ : TracerouteOutput).avg ∧
        r.med = some (pyRound 3 ((⟨some (162 / 100), "1", [("a", "(x)")], some 2,
          some (161725 / 100000), some 2⟩ : TracerouteOutput).median.getD 0)) :=
  ⟨⟨by decide, by decide, by decide⟩,
    C8_duplicate_run_aggregate ["hdr", "1  a (x)  1.2345 ms  2.0 ms"] exRun5 _ "1"
      (by decide) (by decide) (by decide)⟩

/-- C9.  A token standing before an `ms` marker that does not parse as a
float is silently skipped: it contributes no sample and the scan of the rest
of the line proceeds exactly as if the scan continued from the `ms` token;
moreover no token content can make a line's parse fail (only a token-less
line does), so the remaining lines of the run are unaffected. -/
theorem C9_malformed_token_skipped (prev bad msTok : String) (rest : List String)
    (hf : pyFloat bad = none)
    (hbp : (hasChar bad '(' && hasChar bad ')') = false)
    (hbm : hasMs bad = false)
    (hmp : (hasChar msTok '(' && hasChar msTok ')') = false)
    (hmm : hasMs msTok = true) :
    scanTokens prev (bad :: msTok :: rest) = scanTokens msTok rest ∧
    ∀ (hop : String) (ps : List String), ∃ out, lineRecords (hop :: ps) = Except.ok out := by
  constructor
  · rw [scanTokens, scanTokens]
    simp [hbp, hbm, hmp, hmm, hf]
  · intro hop ps
    rw [lineRecords]
    by_cases hto : ps.take 3 = ["*", "*", "*"]
    · rw [if_pos hto]
      exact ⟨_, rfl⟩
    · rw [if_neg hto]
      by_cases hts : (scanTokens hop ps).1 = []
      · refine ⟨[], ?_⟩
        simp [hts]
      · refine ⟨[⟨some (pyRound 2 (pyMean (scanTokens hop ps).1)), hop,
          (scanTokens hop ps).2, some (pyMax (scanTokens hop ps).1),
          some (pyMedian (scanTokens hop ps).1),
          some (pyMax (scanTokens hop ps).1)⟩], ?_⟩
        simp [hts]

/-- C9 witness: the token `"abc"` before `"ms"` is skipped and the rest of
the line still yields its sample. -/
theorem C9_malformed_token_witness :
    (pyFloat "abc" = none ∧ (hasChar "abc" '(' && hasChar "abc" ')') = false ∧
      hasMs "abc" = false ∧ (hasChar "ms" '(' && hasChar "ms" ')') = false ∧
      hasMs "ms" = true) ∧
    (scanTokens "x" ["abc", "ms", "1.5", "ms"] = scanTokens "ms" ["1.5", "ms"] ∧
     ∀ (hop : String) (ps : List String), ∃ out, lineRecords (hop :: ps) = Except.ok out) :=
  ⟨⟨by decide, by decide, by decide, by decide, by decide⟩,
    C9_malformed_token_skipped "x" "abc" "ms" ["1.5", "ms"]
      (by decide) (by decide) (by decide) (by decide) (by decide)⟩

/-- C10.  Every record the parser emits has its four numeric fields all null
(timeout record) or all non-null (a record computed from a nonempty sample
list): no emitted record mixes null and non-null numeric fields. -/
theorem C10_numeric_fields_all_or_none (lines : List String)
    (out : List TracerouteOutput) (r : TracerouteOutput)
    (hp : parse_traceroute_output lines = Except.ok out) (hr : r ∈ out) :
    (r.avg = none ∧ r.maximum = none ∧ r.median = none ∧ r.minimum = none) ∨
    (r.avg ≠ none ∧ r.maximum ≠ none ∧ r.median ≠ none ∧ r.minimum ≠ none) := by
  rcases parse_shape hp hr with hn | ⟨ts, -, h1, h2, h3, h4⟩
  · exact Or.inl ⟨hn.1, hn.2.1, hn.2.2.1, hn.2.2.2.1⟩
  · right
    rw [h1, h2, h3, h4]
    simp

/-- C10 witness: a run mixing a timeout hop and a measured hop. -/
theorem C10_numeric_fields_witness :
    (parse_traceroute_output ["hdr", "1  *  *  *", "2  a (x)  1.5 ms"] =
      Except.ok [⟨none, "1", [], none, none, none⟩,
        ⟨some (3 / 2), "2", [("a", "(x)")], some (3 / 2), some (3 / 2), some (3 / 2)⟩] ∧
      (⟨none, "1", [], none, none, none⟩ : TracerouteOutput) ∈
        [⟨none, "1", [], none, none, none⟩,
          ⟨some (3 / 2), "2", [("a", "(x)")], some (3 / 2), some (3 / 2), some (3 / 2)⟩]) ∧
    (((⟨none, "1", [], none, none, none⟩ : TracerouteOutput).avg = none ∧
      (⟨none, "1", [], none, none, none⟩ : TracerouteOutput).maximum = none ∧
      (⟨none, "1", [], none, none, none⟩ : TracerouteOutput).median = none ∧
      (⟨none, "1", [], none, none, none⟩ : TracerouteOutput).minimum = none) ∨
     ((⟨none, "1", [], none, none, none⟩ : TracerouteOutput).avg ≠ none ∧
      (⟨none, "1", [], none, none, none⟩ : TracerouteOutput).maximum ≠ none ∧
      (⟨none, "1", [], none, none, none⟩ : TracerouteOutput).median ≠ none ∧
      (⟨none, "1", [], none, none, none⟩ : TracerouteOutput).minimum ≠ none)) :=
  ⟨⟨by decide, by decide⟩,
    C10_numeric_fields_all_or_none ["hdr", "1  *  *  *", "2  a (x)  1.5 ms"]
      [⟨none, "1", [], none, none, none⟩,
        ⟨some (3 / 2), "2", [("a", "(x)")], some (3 / 2), some (3 / 2), some (3 / 2)⟩]
      ⟨none, "1", [], none, none, none⟩
      (by decide) (by decide)⟩

end TraceWrap
